import Mathlib

/-!
Verification of the white_border_adder image tool (src/rust/src/main.rs).

Modelling conventions:
* Rust `f64` arithmetic is embedded as exact rational arithmetic (ℚ).
* Rust `u32` values are natural numbers; the `as u32` cast from a rounded
  float saturates (negative ↦ 0, above `u32::MAX` ↦ `u32::MAX`), and `u32`
  subtraction wraps modulo 2^32 (release-mode semantics), both made explicit.
* Pixel buffers are a width, a height and a total pixel function; the image
  crate's decode/resize primitives are opaque collaborators, passed in as
  function arguments.
* Durations are natural numbers (nanosecond counts); the batch loop of
  `main` is a left fold of a step function over the per-file outcomes.
-/

namespace WhiteBorderAdder

/-- `2^32`, one more than `u32::MAX`. -/
def U32M : ℕ := 2 ^ 32

/-- Rust `f64::round`: round half away from zero, on the ℚ model of `f64`. -/
def roundHalfAway (q : ℚ) : ℤ :=
  if q < 0 then -⌊-q + 1 / 2⌋ else ⌊q + 1 / 2⌋

/-- Rust `as u32` cast applied to an already-rounded value: saturating. -/
def castU32 (z : ℤ) : ℕ :=
  min z.toNat (U32M - 1)

/-- Rust release-mode `u32` subtraction/arithmetic: wrap modulo `2^32`. -/
def wrap32 (z : ℤ) : ℕ :=
  (z % (U32M : ℤ)).toNat

/-- Rust `str::to_lowercase`, restricted to the ASCII case mapping that is
relevant for file extensions. -/
def toLowercase (s : String) : String :=
  (s.data.map Char.toLower).asString

/-- An RGBA pixel with 8-bit channels (`image::Rgba<u8>`). -/
structure Rgba where
  r : ℕ
  g : ℕ
  b : ℕ
  a : ℕ
deriving DecidableEq, Repr

/-- `const WHITE: Rgba<u8> = Rgba([255, 255, 255, 255])` (main.rs line 10). -/
def WHITE : Rgba := ⟨255, 255, 255, 255⟩

/-- A fully transparent pixel, as can occur in a decoded PNG source. -/
def clearPix : Rgba := ⟨0, 0, 0, 0⟩

/-- `struct Config` (main.rs lines 62-72); the border ratios are `f64`,
modelled as ℚ.  `separate_folder` and the output-path naming are external
collaborators and are not needed by any claim. -/
structure Config where
  target_width : ℕ
  target_height : ℕ
  landscape_vert_border : ℚ
  landscape_horiz_border : ℚ
  portrait_vert_border : ℚ
  portrait_horiz_border : ℚ
  jpeg_quality : ℕ
deriving DecidableEq, Repr

/-- The default configuration from the clap argument defaults
(main.rs lines 26-51): 1080×1080, landscape 0.05/0.03, portrait 0.005/0.18,
quality 100. -/
def defaultConfig : Config :=
  { target_width := 1080
    target_height := 1080
    landscape_vert_border := 1 / 20
    landscape_horiz_border := 3 / 100
    portrait_vert_border := 1 / 200
    portrait_horiz_border := 9 / 50
    jpeg_quality := 100 }

/-- `let is_landscape = orig_width > orig_height` (main.rs line 217). -/
def is_landscape (orig_width orig_height : ℕ) : Bool :=
  orig_height < orig_width

/-- `let (vert_ratio, horiz_ratio) = if is_landscape {...} else {...}`
(main.rs lines 219-223). -/
def selectRatios (config : Config) (orig_width orig_height : ℕ) : ℚ × ℚ :=
  if is_landscape orig_width orig_height then
    (config.landscape_vert_border, config.landscape_horiz_border)
  else
    (config.portrait_vert_border, config.portrait_horiz_border)

/-- The geometry values computed inside `process_image`:
`scaled_width`, `scaled_height` (u32, from `.round() as u32`) and
`offset_x`, `offset_y` (u32, from truncating division by 2). -/
structure Geometry where
  scaled_width : ℕ
  scaled_height : ℕ
  offset_x : ℕ
  offset_y : ℕ
deriving DecidableEq, Repr

/-- The geometry computation of `process_image` (main.rs lines 217-246):
ratio selection, interior (available) area, fit scale, rounded scaled
dimensions, and centering offsets.  `f64` is modelled as ℚ; the
`as u32` casts saturate and the `u32` subtraction wraps, as in Rust. -/
def computeGeometry (config : Config) (orig_width orig_height : ℕ) : Geometry :=
  let vert_ratio : ℚ := (selectRatios config orig_width orig_height).1
  let horiz_ratio : ℚ := (selectRatios config orig_width orig_height).2
  let available_width : ℚ := (config.target_width : ℚ) * (1 - 2 * horiz_ratio)
  let available_height : ℚ := (config.target_height : ℚ) * (1 - 2 * vert_ratio)
  let scale : ℚ :=
    min (available_width / (orig_width : ℚ)) (available_height / (orig_height : ℚ))
  let scaled_width : ℕ := castU32 (roundHalfAway ((orig_width : ℚ) * scale))
  let scaled_height : ℕ := castU32 (roundHalfAway ((orig_height : ℚ) * scale))
  let offset_x : ℕ := wrap32 ((config.target_width : ℤ) - (scaled_width : ℤ)) / 2
  let offset_y : ℕ := wrap32 ((config.target_height : ℤ) - (scaled_height : ℤ)) / 2
  { scaled_width := scaled_width
    scaled_height := scaled_height
    offset_x := offset_x
    offset_y := offset_y }

/-- A pixel buffer (`ImageBuffer` / `RgbaImage`): dimensions plus a total
pixel function. -/
structure Canvas where
  width : ℕ
  height : ℕ
  pix : ℕ → ℕ → Rgba

/-- The solid-white canvas
`ImageBuffer::from_pixel(target_width, target_height, WHITE)`
(main.rs lines 234-235). -/
def whiteCanvas (config : Config) : Canvas :=
  { width := config.target_width
    height := config.target_height
    pix := fun _ _ => WHITE }

/-- `GenericImage::copy_from(other, x, y)` (used at main.rs line 248):
errors when the offset plus the source extent exceeds the canvas bounds
(the additions are `u32` and wrap), otherwise replaces the pixels of the
target rectangle verbatim with the source pixels (no blending). -/
def copyFrom (c other : Canvas) (x y : ℕ) : Except Unit Canvas :=
  if c.width < (other.width + x) % U32M ∨ c.height < (other.height + y) % U32M then
    .error ()
  else
    .ok { width := c.width
          height := c.height
          pix := fun px py =>
            if x ≤ px ∧ px < x + other.width ∧ y ≤ py ∧ py < y + other.height then
              other.pix (px - x) (py - y)
            else
              c.pix px py }

/-- The compositing step of `process_image` (main.rs lines 233-248): build
the solid-white canvas, resize the source to the computed scaled
dimensions (the resize primitive `resizeFn` is an opaque collaborator; the
image crate guarantees only the output dimensions), and `copy_from` it at
the computed offsets. -/
def compositeCanvas (config : Config) (img : Canvas)
    (resizeFn : Canvas → ℕ → ℕ → Canvas) : Except Unit Canvas :=
  let g := computeGeometry config img.width img.height
  let resized := resizeFn img g.scaled_width g.scaled_height
  copyFrom (whiteCanvas config) resized g.offset_x g.offset_y

/-- The serialized output: lossless PNG, or JPEG at a quality setting. -/
inductive Encoded where
  | png (c : Canvas)
  | jpeg (c : Canvas) (quality : ℕ)

/-- The lowercased output extension, `""` when the path has none
(main.rs lines 250-254). -/
def extLower (outExtension : Option String) : String :=
  match outExtension with
  | some s => toLowercase s
  | none => ""

/-- Encoder dispatch (main.rs lines 256-263): extension `"png"` →
lossless save, anything else → JPEG at the configured quality. -/
def encodeDispatch (quality : ℕ) (outExtension : Option String) (c : Canvas) : Encoded :=
  let out_ext : String := extLower outExtension
  if out_ext = "png" then .png c else .jpeg c quality

/-- `process_image` (main.rs lines 210-266) after decode (the decoded RGBA
buffer `img` is an argument): geometry, compositing, encoder dispatch.
The single checked failure inside this region of the code is the defensive
bounds check of `copy_from`. -/
def processImage (config : Config) (img : Canvas)
    (resizeFn : Canvas → ℕ → ℕ → Canvas) (outExtension : Option String) :
    Except Unit Encoded :=
  match compositeCanvas config img resizeFn with
  | .error e => .error e
  | .ok c => .ok (encodeDispatch config.jpeg_quality outExtension c)

/-- Reads a pixel out of a successful encode result (for stating concrete
facts about the composited canvas). -/
def outPixel (r : Except Unit Encoded) (x y : ℕ) : Option Rgba :=
  match r with
  | .ok (.png c) => some (c.pix x y)
  | .ok (.jpeg c _) => some (c.pix x y)
  | .error _ => none

/-- Error kinds a per-file attempt can carry; the batch driver only
distinguishes success from failure. -/
inductive ErrKind where
  | decodeError
  | compositionError
  | encodeError
deriving DecidableEq, Repr

/-- The running accumulator of `main` (main.rs lines 117-121):
`total_ok`, `total_fail`, `total_duration`, `fastest`, `slowest`. -/
structure Summary where
  total_ok : ℕ
  total_fail : ℕ
  total_duration : ℕ
  fastest : Option (String × ℕ)
  slowest : Option (String × ℕ)
deriving DecidableEq, Repr

/-- The initial accumulator state (main.rs lines 117-121). -/
def initSummary : Summary :=
  { total_ok := 0, total_fail := 0, total_duration := 0
    fastest := none, slowest := none }

/-- One iteration of the batch loop (main.rs lines 145-163): on success
increment `total_ok`, add the elapsed duration, and update `fastest`
(strictly smaller only) and `slowest` (strictly larger only); on failure
only increment `total_fail`. -/
def stepSummary (s : Summary) (item : String × Except ErrKind ℕ) : Summary :=
  match item.2 with
  | .ok elapsed =>
      { total_ok := s.total_ok + 1
        total_fail := s.total_fail
        total_duration := s.total_duration + elapsed
        fastest :=
          if (s.fastest.map (fun p => decide (elapsed < p.2))).getD true then
            some (item.1, elapsed)
          else s.fastest
        slowest :=
          if (s.slowest.map (fun p => decide (p.2 < elapsed))).getD true then
            some (item.1, elapsed)
          else s.slowest }
  | .error _ =>
      { s with total_fail := s.total_fail + 1 }

/-- The whole batch loop of `main` over the candidate files, each already
reduced to its per-file outcome (name, success duration or error kind). -/
def runBatch (items : List (String × Except ErrKind ℕ)) : Summary :=
  items.foldl stepSummary initSummary

/-- The end-of-run report (main.rs lines 168-180): the counts are always
shown; average, fastest and slowest only when `total_ok > 0`, the average
being `total_duration / total_ok` in `f64` (modelled as ℚ). -/
structure Report where
  total_ok : ℕ
  total_fail : ℕ
  average : Option ℚ
  fastest : Option (String × ℕ)
  slowest : Option (String × ℕ)

/-- Builds the final report from the accumulator (main.rs lines 168-180). -/
def finalReport (s : Summary) : Report :=
  { total_ok := s.total_ok
    total_fail := s.total_fail
    average :=
      if 0 < s.total_ok then some ((s.total_duration : ℚ) / (s.total_ok : ℚ))
      else none
    fastest := if 0 < s.total_ok then s.fastest else none
    slowest := if 0 < s.total_ok then s.slowest else none }

/-- Reference description of the `fastest` record: the first success in
list order attaining the minimal duration (an equal later duration never
displaces an earlier one). -/
def specFastest : List (String × Except ErrKind ℕ) → Option (String × ℕ)
  | [] => none
  | (_, .error _) :: rest => specFastest rest
  | (n, .ok d) :: rest =>
      match specFastest rest with
      | some p => if p.2 < d then some p else some (n, d)
      | none => some (n, d)

/-- Reference description of the `slowest` record: the first success in
list order attaining the maximal duration. -/
def specSlowest : List (String × Except ErrKind ℕ) → Option (String × ℕ)
  | [] => none
  | (_, .error _) :: rest => specSlowest rest
  | (n, .ok d) :: rest =>
      match specSlowest rest with
      | some p => if d < p.2 then some p else some (n, d)
      | none => some (n, d)

/-- The durations of the successful outcomes, in list order. -/
def okDurations (items : List (String × Except ErrKind ℕ)) : List ℕ :=
  items.filterMap fun i =>
    match i.2 with
    | .ok d => some d
    | .error _ => none

/-- How a running extremum candidate combines with the extremum of the
remaining items: a strictly better later candidate wins, ties keep the
earlier one. -/
def combineMin (a b : Option (String × ℕ)) : Option (String × ℕ) :=
  match a, b with
  | none, r => r
  | some p, none => some p
  | some p, some q => if q.2 < p.2 then some q else some p

def combineMax (a b : Option (String × ℕ)) : Option (String × ℕ) :=
  match a, b with
  | none, r => r
  | some p, none => some p
  | some p, some q => if p.2 < q.2 then some q else some p

/-- A stand-in for the opaque resize collaborator: correct output
dimensions, pixels sampled from the source. -/
def modelResize : Canvas → ℕ → ℕ → Canvas :=
  fun c w h => { width := w, height := h, pix := fun x y => c.pix x y }

/-- A resize stand-in for a fully transparent decoded source: resampling
an all-transparent buffer yields an all-transparent buffer. -/
def resizeClear : Canvas → ℕ → ℕ → Canvas :=
  fun _ w h => { width := w, height := h, pix := fun _ _ => clearPix }

/-- The default configuration with the portrait horizontal border ratio
raised to 0.5, so the interior (available) width is exactly 0. -/
def cfgHalf : Config :=
  { defaultConfig with portrait_horiz_border := 1 / 2 }

/-- A 100×100 (square, hence portrait) opaque source image. -/
def imgSquare : Canvas :=
  { width := 100, height := 100, pix := fun _ _ => WHITE }

/-- A 4×4-target configuration with all border ratios 0. -/
def cfgTiny : Config :=
  { target_width := 4, target_height := 4
    landscape_vert_border := 0, landscape_horiz_border := 0
    portrait_vert_border := 0, portrait_horiz_border := 0
    jpeg_quality := 100 }

/-- A 2×2 fully transparent source image (e.g. a decoded transparent
PNG). -/
def imgClear : Canvas :=
  { width := 2, height := 2, pix := fun _ _ => clearPix }

/-- A demonstration outcome list: two successes with equal durations
around one decode failure. -/
def demoItems : List (String × Except ErrKind ℕ) :=
  [("a", Except.ok 5), ("bad", Except.error ErrKind.decodeError), ("b", Except.ok 5)]

end WhiteBorderAdder

namespace WhiteBorderAdder

lemma castU32_le {z : ℤ} {t : ℕ} (h : z ≤ (t : ℤ)) : castU32 z ≤ t := by
  unfold castU32
  exact le_trans (min_le_left _ _) (Int.toNat_le.mpr h)

lemma roundHalfAway_le_natCast {q : ℚ} {t : ℕ} (h : q ≤ (t : ℚ)) :
    roundHalfAway q ≤ (t : ℤ) := by
  unfold roundHalfAway
  split
  · have h1 : (0:ℤ) ≤ ⌊-q + 1/2⌋ := by
      apply Int.floor_nonneg.mpr
      linarith
    omega
  · have h2 : ⌊q + 1/2⌋ ≤ ⌊(t:ℚ) + 1/2⌋ := Int.floor_le_floor (by linarith)
    have h3 : ⌊(t:ℚ) + 1/2⌋ = t := by
      rw [show ((t:ℚ) + 1/2) = ((t:ℤ):ℚ) + 1/2 by push_cast; ring]
      rw [Int.floor_int_add]
      norm_num
    omega

lemma scaled_width_le (config : Config) (ow oh : ℕ) (how : 0 < ow)
    (hsel : 0 ≤ (selectRatios config ow oh).2) :
    (computeGeometry config ow oh).scaled_width ≤ config.target_width := by
  unfold computeGeometry
  dsimp only
  apply castU32_le
  apply roundHalfAway_le_natCast
  have how' : (0:ℚ) < (ow:ℚ) := by exact_mod_cast how
  have h1 : min ((config.target_width : ℚ) * (1 - 2 * (selectRatios config ow oh).2) / (ow : ℚ))
      ((config.target_height : ℚ) * (1 - 2 * (selectRatios config ow oh).1) / (oh : ℚ)) ≤
      (config.target_width : ℚ) * (1 - 2 * (selectRatios config ow oh).2) / (ow : ℚ) :=
    min_le_left _ _
  have h2 : (ow:ℚ) * ((config.target_width : ℚ) * (1 - 2 * (selectRatios config ow oh).2) / (ow : ℚ)) =
      (config.target_width : ℚ) * (1 - 2 * (selectRatios config ow oh).2) := by
    field_simp
  nlinarith [Nat.cast_nonneg (α := ℚ) config.target_width, h1, h2,
    mul_le_mul_of_nonneg_left h1 (le_of_lt how')]

end WhiteBorderAdder

namespace WhiteBorderAdder

lemma scaled_height_le (config : Config) (ow oh : ℕ) (hoh : 0 < oh)
    (hsel : 0 ≤ (selectRatios config ow oh).1) :
    (computeGeometry config ow oh).scaled_height ≤ config.target_height := by
  unfold computeGeometry
  dsimp only
  apply castU32_le
  apply roundHalfAway_le_natCast
  have hoh' : (0:ℚ) < (oh:ℚ) := by exact_mod_cast hoh
  have h1 : min ((config.target_width : ℚ) * (1 - 2 * (selectRatios config ow oh).2) / (ow : ℚ))
      ((config.target_height : ℚ) * (1 - 2 * (selectRatios config ow oh).1) / (oh : ℚ)) ≤
      (config.target_height : ℚ) * (1 - 2 * (selectRatios config ow oh).1) / (oh : ℚ) :=
    min_le_right _ _
  have h2 : (oh:ℚ) * ((config.target_height : ℚ) * (1 - 2 * (selectRatios config ow oh).1) / (oh : ℚ)) =
      (config.target_height : ℚ) * (1 - 2 * (selectRatios config ow oh).1) := by
    field_simp
  nlinarith [Nat.cast_nonneg (α := ℚ) config.target_height, h1, h2,
    mul_le_mul_of_nonneg_left h1 (le_of_lt hoh')]

lemma wrap32_sub_of_le {t s : ℕ} (hs : s ≤ t) (ht : t < U32M) :
    wrap32 ((t : ℤ) - (s : ℤ)) = t - s := by
  unfold wrap32
  rw [Int.emod_eq_of_lt (by omega) (by push_cast [U32M] at ht ⊢; omega)]
  omega

lemma offset_add_le {t s : ℕ} (hs : s ≤ t) (ht : t < U32M) :
    wrap32 ((t : ℤ) - (s : ℤ)) / 2 + s ≤ t := by
  rw [wrap32_sub_of_le hs ht]
  omega

end WhiteBorderAdder

namespace WhiteBorderAdder

lemma geometry_bounds (config : Config) (ow oh : ℕ)
    (how : 0 < ow) (hoh : 0 < oh)
    (htw : 0 < config.target_width) (hth : 0 < config.target_height)
    (htw32 : config.target_width < U32M) (hth32 : config.target_height < U32M)
    (h1 : 0 ≤ config.landscape_vert_border) (h2 : config.landscape_vert_border < 1 / 2)
    (h3 : 0 ≤ config.landscape_horiz_border) (h4 : config.landscape_horiz_border < 1 / 2)
    (h5 : 0 ≤ config.portrait_vert_border) (h6 : config.portrait_vert_border < 1 / 2)
    (h7 : 0 ≤ config.portrait_horiz_border) (h8 : config.portrait_horiz_border < 1 / 2) :
    (computeGeometry config ow oh).scaled_width ≤ config.target_width ∧
    (computeGeometry config ow oh).scaled_height ≤ config.target_height ∧
    0 ≤ (computeGeometry config ow oh).offset_x ∧
    0 ≤ (computeGeometry config ow oh).offset_y ∧
    (computeGeometry config ow oh).offset_x + (computeGeometry config ow oh).scaled_width ≤
      config.target_width ∧
    (computeGeometry config ow oh).offset_y + (computeGeometry config ow oh).scaled_height ≤
      config.target_height := by
  have hsel_v : 0 ≤ (selectRatios config ow oh).1 := by
    unfold selectRatios
    split <;> simpa
  have hsel_h : 0 ≤ (selectRatios config ow oh).2 := by
    unfold selectRatios
    split <;> simpa
  have hw := scaled_width_le config ow oh how hsel_h
  have hh := scaled_height_le config ow oh hoh hsel_v
  refine ⟨hw, hh, Nat.zero_le _, Nat.zero_le _, ?_, ?_⟩
  · have hox : (computeGeometry config ow oh).offset_x =
        wrap32 ((config.target_width : ℤ) - ((computeGeometry config ow oh).scaled_width : ℤ)) / 2 :=
      rfl
    rw [hox]
    exact offset_add_le hw htw32
  · have hoy : (computeGeometry config ow oh).offset_y =
        wrap32 ((config.target_height : ℤ) - ((computeGeometry config ow oh).scaled_height : ℤ)) / 2 :=
      rfl
    rw [hoy]
    exact offset_add_le hh hth32

end WhiteBorderAdder

namespace WhiteBorderAdder

lemma foldl_counts (items : List (String × Except ErrKind ℕ)) (s : Summary) :
    (items.foldl stepSummary s).total_ok = s.total_ok + items.countP (fun i => i.2.isOk) ∧
    (items.foldl stepSummary s).total_fail = s.total_fail + items.countP (fun i => !i.2.isOk) ∧
    (items.foldl stepSummary s).total_duration = s.total_duration + (okDurations items).sum := by
  induction items generalizing s with
  | nil => simp [okDurations]
  | cons hd tl ih =>
    rcases hd with ⟨n, r⟩
    rcases r with d | e <;>
      simp [List.countP_cons, okDurations, List.filterMap_cons, stepSummary,
        Except.isOk, Except.toBool, ih, Nat.add_assoc, Nat.add_comm, Nat.add_left_comm]

end WhiteBorderAdder

namespace WhiteBorderAdder

lemma foldl_fastest (items : List (String × Except ErrKind ℕ)) (s : Summary) :
    (items.foldl stepSummary s).fastest = combineMin s.fastest (specFastest items) := by
  induction items generalizing s with
  | nil => rcases h : s.fastest with _ | p <;> simp [combineMin, h, specFastest]
  | cons hd tl ih =>
    rcases hd with ⟨n, r⟩
    rcases r with e | d
    · rw [List.foldl_cons, ih]
      have hstep : (stepSummary s (n, Except.error e)).fastest = s.fastest := rfl
      rw [hstep]
      rfl
    · rw [List.foldl_cons, ih]
      rcases hs : s.fastest with _ | p <;>
        rcases hr : specFastest tl with _ | q <;>
          simp [combineMin, specFastest, hr, stepSummary, hs]
      all_goals split_ifs <;> first
        | rfl
        | (exfalso; omega)
        | (dsimp only; split_ifs <;> first
            | rfl
            | (exfalso; omega))

lemma foldl_slowest (items : List (String × Except ErrKind ℕ)) (s : Summary) :
    (items.foldl stepSummary s).slowest = combineMax s.slowest (specSlowest items) := by
  induction items generalizing s with
  | nil => rcases h : s.slowest with _ | p <;> simp [combineMax, h, specSlowest]
  | cons hd tl ih =>
    rcases hd with ⟨n, r⟩
    rcases r with e | d
    · rw [List.foldl_cons, ih]
      have hstep : (stepSummary s (n, Except.error e)).slowest = s.slowest := rfl
      rw [hstep]
      rfl
    · rw [List.foldl_cons, ih]
      rcases hs : s.slowest with _ | p <;>
        rcases hr : specSlowest tl with _ | q <;>
          simp [combineMax, specSlowest, hr, stepSummary, hs]
      all_goals split_ifs <;> first
        | rfl
        | (exfalso; omega)
        | (dsimp only; split_ifs <;> first
            | rfl
            | (exfalso; omega))

lemma runBatch_fastest (items : List (String × Except ErrKind ℕ)) :
    (runBatch items).fastest = specFastest items := by
  rw [runBatch, foldl_fastest]
  rfl

lemma runBatch_slowest (items : List (String × Except ErrKind ℕ)) :
    (runBatch items).slowest = specSlowest items := by
  rw [runBatch, foldl_slowest]
  rfl

lemma specFastest_mem {items : List (String × Except ErrKind ℕ)} {p : String × ℕ}
    (h : specFastest items = some p) : (p.1, Except.ok p.2) ∈ items := by
  induction items with
  | nil => simp [specFastest] at h
  | cons hd tl ih =>
    rcases hd with ⟨n, r⟩
    rcases r with e | d
    · simp only [specFastest] at h
      exact List.mem_cons_of_mem _ (ih h)
    · simp only [specFastest] at h
      rcases hr : specFastest tl with _ | q <;> rw [hr] at h <;> dsimp only at h
      · rw [Option.some.injEq] at h
        subst h
        exact List.mem_cons_self _ _
      · split at h <;> rw [Option.some.injEq] at h <;> subst h
        · exact List.mem_cons_of_mem _ (ih hr)
        · exact List.mem_cons_self _ _

lemma specSlowest_mem {items : List (String × Except ErrKind ℕ)} {p : String × ℕ}
    (h : specSlowest items = some p) : (p.1, Except.ok p.2) ∈ items := by
  induction items with
  | nil => simp [specSlowest] at h
  | cons hd tl ih =>
    rcases hd with ⟨n, r⟩
    rcases r with e | d
    · simp only [specSlowest] at h
      exact List.mem_cons_of_mem _ (ih h)
    · simp only [specSlowest] at h
      rcases hr : specSlowest tl with _ | q <;> rw [hr] at h <;> dsimp only at h
      · rw [Option.some.injEq] at h
        subst h
        exact List.mem_cons_self _ _
      · split at h <;> rw [Option.some.injEq] at h <;> subst h
        · exact List.mem_cons_of_mem _ (ih hr)
        · exact List.mem_cons_self _ _

lemma specFastest_eq_none {items : List (String × Except ErrKind ℕ)} :
    specFastest items = none ↔ items.countP (fun i => i.2.isOk) = 0 := by
  induction items with
  | nil => simp [specFastest]
  | cons hd tl ih =>
    rcases hd with ⟨n, r⟩
    rcases r with e | d
    · simpa [specFastest, List.countP_cons, Except.isOk, Except.toBool] using ih
    · simp only [specFastest, List.countP_cons, Except.isOk, Except.toBool]
      rcases hr : specFastest tl with _ | q <;> simp [hr]
      split <;> simp

lemma specSlowest_eq_none {items : List (String × Except ErrKind ℕ)} :
    specSlowest items = none ↔ items.countP (fun i => i.2.isOk) = 0 := by
  induction items with
  | nil => simp [specSlowest]
  | cons hd tl ih =>
    rcases hd with ⟨n, r⟩
    rcases r with e | d
    · simpa [specSlowest, List.countP_cons, Except.isOk, Except.toBool] using ih
    · simp only [specSlowest, List.countP_cons, Except.isOk, Except.toBool]
      rcases hr : specSlowest tl with _ | q <;> simp [hr]
      split <;> simp

lemma specFastest_none_no_ok {items : List (String × Except ErrKind ℕ)}
    (h : specFastest items = none) :
    ∀ i ∈ items, ∀ d : ℕ, i.2 ≠ Except.ok d := by
  intro i hi d hok
  have hc := specFastest_eq_none.mp h
  have : (fun i : String × Except ErrKind ℕ => i.2.isOk) i = true := by
    simp [hok, Except.isOk, Except.toBool]
  have hpos : 0 < items.countP (fun i : String × Except ErrKind ℕ => i.2.isOk) :=
    List.countP_pos.mpr ⟨i, hi, this⟩
  omega

lemma specSlowest_none_no_ok {items : List (String × Except ErrKind ℕ)}
    (h : specSlowest items = none) :
    ∀ i ∈ items, ∀ d : ℕ, i.2 ≠ Except.ok d := by
  intro i hi d hok
  have hc := specSlowest_eq_none.mp h
  have : (fun i : String × Except ErrKind ℕ => i.2.isOk) i = true := by
    simp [hok, Except.isOk, Except.toBool]
  have hpos : 0 < items.countP (fun i : String × Except ErrKind ℕ => i.2.isOk) :=
    List.countP_pos.mpr ⟨i, hi, this⟩
  omega

lemma specFastest_min (items : List (String × Except ErrKind ℕ)) :
    ∀ p : String × ℕ, specFastest items = some p →
      ∀ i ∈ items, ∀ d : ℕ, i.2 = Except.ok d → p.2 ≤ d := by
  induction items with
  | nil => simp
  | cons hd tl ih =>
    rcases hd with ⟨n, r⟩
    intro p h i hi d hd2
    rcases r with e | d'
    · simp only [specFastest] at h
      rcases List.mem_cons.mp hi with hhd | htl
      · subst hhd
        simp at hd2
      · exact ih p h i htl d hd2
    · simp only [specFastest] at h
      rcases hr : specFastest tl with _ | q <;> rw [hr] at h <;> dsimp only at h
      · rw [Option.some.injEq] at h
        subst h
        rcases List.mem_cons.mp hi with hhd | htl
        · subst hhd
          simp only [Except.ok.injEq] at hd2
          omega
        · exact absurd hd2 (specFastest_none_no_ok hr i htl d)
      · split at h <;> rw [Option.some.injEq] at h <;> subst h
        · rcases List.mem_cons.mp hi with hhd | htl
          · subst hhd
            simp only [Except.ok.injEq] at hd2
            omega
          · exact ih q hr i htl d hd2
        · rcases List.mem_cons.mp hi with hhd | htl
          · subst hhd
            simp only [Except.ok.injEq] at hd2
            omega
          · have hq := ih q hr i htl d hd2
            simp only [not_lt] at *
            omega

lemma specSlowest_max (items : List (String × Except ErrKind ℕ)) :
    ∀ p : String × ℕ, specSlowest items = some p →
      ∀ i ∈ items, ∀ d : ℕ, i.2 = Except.ok d → d ≤ p.2 := by
  induction items with
  | nil => simp
  | cons hd tl ih =>
    rcases hd with ⟨n, r⟩
    intro p h i hi d hd2
    rcases r with e | d'
    · simp only [specSlowest] at h
      rcases List.mem_cons.mp hi with hhd | htl
      · subst hhd
        simp at hd2
      · exact ih p h i htl d hd2
    · simp only [specSlowest] at h
      rcases hr : specSlowest tl with _ | q <;> rw [hr] at h <;> dsimp only at h
      · rw [Option.some.injEq] at h
        subst h
        rcases List.mem_cons.mp hi with hhd | htl
        · subst hhd
          simp only [Except.ok.injEq] at hd2
          omega
        · exact absurd hd2 (specSlowest_none_no_ok hr i htl d)
      · split at h <;> rw [Option.some.injEq] at h <;> subst h
        · rcases List.mem_cons.mp hi with hhd | htl
          · subst hhd
            simp only [Except.ok.injEq] at hd2
            omega
          · exact ih q hr i htl d hd2
        · rcases List.mem_cons.mp hi with hhd | htl
          · subst hhd
            simp only [Except.ok.injEq] at hd2
            omega
          · have hq := ih q hr i htl d hd2
            simp only [not_lt] at *
            omega

end WhiteBorderAdder

namespace WhiteBorderAdder

/-- C1: for positive source dimensions and a Config with u32 targets and all
border ratios in [0, 0.5) (hence positive interior area), the geometry
yields scaled dimensions within the target, non-negative offsets, and the
placed region fits the canvas on both axes, so the u32 subtractions
`(target - scaled) / 2` never underflow. -/
theorem geometry_fits_canvas (config : Config) (ow oh : ℕ)
    (how : 0 < ow) (hoh : 0 < oh)
    (htw : 0 < config.target_width) (hth : 0 < config.target_height)
    (htw32 : config.target_width < U32M) (hth32 : config.target_height < U32M)
    (h1 : 0 ≤ config.landscape_vert_border) (h2 : config.landscape_vert_border < 1 / 2)
    (h3 : 0 ≤ config.landscape_horiz_border) (h4 : config.landscape_horiz_border < 1 / 2)
    (h5 : 0 ≤ config.portrait_vert_border) (h6 : config.portrait_vert_border < 1 / 2)
    (h7 : 0 ≤ config.portrait_horiz_border) (h8 : config.portrait_horiz_border < 1 / 2) :
    (computeGeometry config ow oh).scaled_width ≤ config.target_width ∧
    (computeGeometry config ow oh).scaled_height ≤ config.target_height ∧
    0 ≤ (computeGeometry config ow oh).offset_x ∧
    0 ≤ (computeGeometry config ow oh).offset_y ∧
    (computeGeometry config ow oh).offset_x + (computeGeometry config ow oh).scaled_width ≤
      config.target_width ∧
    (computeGeometry config ow oh).offset_y + (computeGeometry config ow oh).scaled_height ≤
      config.target_height :=
  geometry_bounds config ow oh how hoh htw hth htw32 hth32 h1 h2 h3 h4 h5 h6 h7 h8

/-- Witness for C1 at the default configuration and a 2000×1000 source. -/
theorem geometry_fits_canvas_witness :
    (computeGeometry defaultConfig 2000 1000).scaled_width ≤ defaultConfig.target_width ∧
    (computeGeometry defaultConfig 2000 1000).scaled_height ≤ defaultConfig.target_height ∧
    0 ≤ (computeGeometry defaultConfig 2000 1000).offset_x ∧
    0 ≤ (computeGeometry defaultConfig 2000 1000).offset_y ∧
    (computeGeometry defaultConfig 2000 1000).offset_x +
      (computeGeometry defaultConfig 2000 1000).scaled_width ≤ defaultConfig.target_width ∧
    (computeGeometry defaultConfig 2000 1000).offset_y +
      (computeGeometry defaultConfig 2000 1000).scaled_height ≤ defaultConfig.target_height :=
  geometry_fits_canvas defaultConfig 2000 1000 (by norm_num) (by norm_num)
    (by norm_num [defaultConfig]) (by norm_num [defaultConfig])
    (by norm_num [defaultConfig, U32M]) (by norm_num [defaultConfig, U32M])
    (by norm_num [defaultConfig]) (by norm_num [defaultConfig])
    (by norm_num [defaultConfig]) (by norm_num [defaultConfig])
    (by norm_num [defaultConfig]) (by norm_num [defaultConfig])
    (by norm_num [defaultConfig]) (by norm_num [defaultConfig])

/-- C2: the two worked scenarios of the spec: a 2000×1000 landscape source
and an 800×1200 portrait source, both with the default 1080×1080 target
and default ratios, produce exactly the listed geometry values. -/
theorem geometry_worked_examples :
    computeGeometry defaultConfig 2000 1000 =
      { scaled_width := 1015, scaled_height := 508, offset_x := 32, offset_y := 286 } ∧
    computeGeometry defaultConfig 800 1200 =
      { scaled_width := 691, scaled_height := 1037, offset_x := 194, offset_y := 21 } := by
  constructor <;>
    · simp only [computeGeometry, selectRatios, is_landscape, castU32, roundHalfAway, wrap32,
        U32M, defaultConfig]
      norm_num [min_def]
      decide

/-- C3: a square source is not landscape and selects the portrait ratio
pair; landscape holds exactly when the width strictly exceeds the
height. -/
theorem square_source_is_portrait (config : Config) (n ow oh : ℕ) :
    is_landscape n n = false ∧
    selectRatios config n n = (config.portrait_vert_border, config.portrait_horiz_border) ∧
    (is_landscape ow oh = true ↔ oh < ow) := by
  refine ⟨?_, ?_, ?_⟩
  · simp [is_landscape]
  · simp [selectRatios, is_landscape]
  · simp [is_landscape]

end WhiteBorderAdder

namespace WhiteBorderAdder

lemma roundHalfAway_nonpos {q : ℚ} (h : q ≤ 0) : roundHalfAway q ≤ 0 := by
  unfold roundHalfAway
  split
  · have h1 : (0:ℤ) ≤ ⌊-q + 1 / 2⌋ := Int.floor_nonneg.mpr (by linarith)
    omega
  · have h2 : ⌊q + 1 / 2⌋ < 1 := Int.floor_lt.mpr (by push_cast; linarith)
    omega

lemma castU32_eq_zero {z : ℤ} (h : z ≤ 0) : castU32 z = 0 := by
  unfold castU32
  simp [Int.toNat_of_nonpos h]

lemma scaled_zero_of_ratio_ge_half (config : Config) (ow oh : ℕ)
    (how : 0 < ow) (hoh : 0 < oh)
    (hratio : 1 / 2 ≤ (selectRatios config ow oh).2) :
    (computeGeometry config ow oh).scaled_width = 0 ∧
    (computeGeometry config ow oh).scaled_height = 0 := by
  have haw : (config.target_width : ℚ) * (1 - 2 * (selectRatios config ow oh).2) ≤ 0 := by
    have hle : (1 - 2 * (selectRatios config ow oh).2 : ℚ) ≤ 0 := by linarith
    exact mul_nonpos_of_nonneg_of_nonpos (Nat.cast_nonneg _) hle
  have hdiv : (config.target_width : ℚ) * (1 - 2 * (selectRatios config ow oh).2) / (ow : ℚ) ≤ 0 :=
    div_nonpos_of_nonpos_of_nonneg haw (Nat.cast_nonneg _)
  have hscale :
      min ((config.target_width : ℚ) * (1 - 2 * (selectRatios config ow oh).2) / (ow : ℚ))
        ((config.target_height : ℚ) * (1 - 2 * (selectRatios config ow oh).1) / (oh : ℚ)) ≤ 0 :=
    le_trans (min_le_left _ _) hdiv
  unfold computeGeometry
  dsimp only
  constructor <;>
    exact castU32_eq_zero (roundHalfAway_nonpos
      (mul_nonpos_of_nonneg_of_nonpos (Nat.cast_nonneg _) hscale))

lemma compositeCanvas_eq (config : Config) (img : Canvas)
    (resizeFn : Canvas → ℕ → ℕ → Canvas) :
    compositeCanvas config img resizeFn =
      copyFrom (whiteCanvas config)
        (resizeFn img (computeGeometry config img.width img.height).scaled_width
          (computeGeometry config img.width img.height).scaled_height)
        (computeGeometry config img.width img.height).offset_x
        (computeGeometry config img.width img.height).offset_y := rfl

lemma copyFrom_ok (c other : Canvas) (x y : ℕ)
    (h : ¬ (c.width < (other.width + x) % U32M ∨ c.height < (other.height + y) % U32M)) :
    copyFrom c other x y =
      Except.ok { width := c.width
                  height := c.height
                  pix := fun px py =>
                    if x ≤ px ∧ px < x + other.width ∧ y ≤ py ∧ py < y + other.height then
                      other.pix (px - x) (py - y)
                    else
                      c.pix px py } := by
  unfold copyFrom
  rw [if_neg h]

lemma processImage_isOk (config : Config) (img : Canvas)
    (resizeFn : Canvas → ℕ → ℕ → Canvas) (outExtension : Option String) (c : Canvas)
    (h : compositeCanvas config img resizeFn = Except.ok c) :
    (processImage config img resizeFn outExtension).isOk = true := by
  unfold processImage
  rw [h]
  rfl

/-- Counterexample to C4: with the portrait horizontal border ratio at 0.5
the interior (available) width is exactly 0, yet `process_image` raises no
error at all — the scaled dimensions collapse to 0, the bounds check
passes, and an encoded output is produced.  No `InvalidConfig` or
`InvalidDimensions` validation exists anywhere in the code. -/
theorem invalid_config_not_signaled :
    (cfgHalf.target_width : ℚ) *
        (1 - 2 * (selectRatios cfgHalf imgSquare.width imgSquare.height).2) ≤ 0 ∧
    (processImage cfgHalf imgSquare modelResize (some ("jpg"))).isOk = true := by
  constructor
  · norm_num [selectRatios, is_landscape, cfgHalf, defaultConfig, imgSquare]
  · have hg : computeGeometry cfgHalf 100 100 =
        { scaled_width := 0, scaled_height := 0, offset_x := 540, offset_y := 540 } := by
      simp only [computeGeometry, selectRatios, is_landscape, castU32, roundHalfAway, wrap32,
        U32M, cfgHalf, defaultConfig]
      norm_num [min_def]
      decide
    obtain ⟨cc, hcc⟩ : ∃ cc, compositeCanvas cfgHalf imgSquare modelResize = Except.ok cc := by
      rw [compositeCanvas_eq]
      simp only [show imgSquare.width = 100 from rfl, show imgSquare.height = 100 from rfl]
      rw [hg]
      dsimp only
      exact ⟨_, copyFrom_ok _ _ _ _ (by
        simp only [whiteCanvas, modelResize, cfgHalf, defaultConfig, U32M]
        norm_num)⟩
    exact processImage_isOk _ _ _ _ cc hcc

end WhiteBorderAdder

namespace WhiteBorderAdder

lemma U32M_val : U32M = 4294967296 := by norm_num [U32M]

lemma offset_eq_half_of_scaled_zero {t : ℕ} (ht : t < U32M) :
    wrap32 ((t : ℤ) - ((0 : ℕ) : ℤ)) / 2 = t / 2 := by
  have h0 : ((t : ℤ) - ((0 : ℕ) : ℤ)) = (t : ℤ) := by push_cast; ring
  rw [h0]
  unfold wrap32
  rw [Int.emod_eq_of_lt (by positivity) (by exact_mod_cast ht)]
  omega

/-- Amended C4: `process_image` performs no interior-area or dimension
validation and defines no `InvalidConfig`/`InvalidDimensions` errors.  When
the selected horizontal border ratio is ≥ 0.5 (non-positive interior
width) and the source dimensions are positive, the fit scale is ≤ 0, both
scaled dimensions collapse to 0, the defensive bounds check passes, and an
encoded output is still produced. -/
theorem no_interior_validation (config : Config) (img : Canvas)
    (resizeFn : Canvas → ℕ → ℕ → Canvas) (outExtension : Option String)
    (hrw : ∀ c w h, (resizeFn c w h).width = w)
    (hrh : ∀ c w h, (resizeFn c w h).height = h)
    (how : 0 < img.width) (hoh : 0 < img.height)
    (htw32 : config.target_width < U32M) (hth32 : config.target_height < U32M)
    (hratio : 1 / 2 ≤ (selectRatios config img.width img.height).2) :
    (computeGeometry config img.width img.height).scaled_width = 0 ∧
    (computeGeometry config img.width img.height).scaled_height = 0 ∧
    (processImage config img resizeFn outExtension).isOk = true := by
  obtain ⟨hsw, hsh⟩ := scaled_zero_of_ratio_ge_half config img.width img.height how hoh hratio
  refine ⟨hsw, hsh, ?_⟩
  have hox : (computeGeometry config img.width img.height).offset_x =
      config.target_width / 2 := by
    have heq : (computeGeometry config img.width img.height).offset_x =
        wrap32 ((config.target_width : ℤ) -
          ((computeGeometry config img.width img.height).scaled_width : ℤ)) / 2 := rfl
    rw [heq, hsw]
    exact offset_eq_half_of_scaled_zero htw32
  have hoy : (computeGeometry config img.width img.height).offset_y =
      config.target_height / 2 := by
    have heq : (computeGeometry config img.width img.height).offset_y =
        wrap32 ((config.target_height : ℤ) -
          ((computeGeometry config img.width img.height).scaled_height : ℤ)) / 2 := rfl
    rw [heq, hsh]
    exact offset_eq_half_of_scaled_zero hth32
  obtain ⟨cc, hcc⟩ : ∃ cc, compositeCanvas config img resizeFn = Except.ok cc := by
    rw [compositeCanvas_eq, hsw, hsh, hox, hoy]
    refine ⟨_, copyFrom_ok _ _ _ _ ?_⟩
    rw [hrw, hrh]
    simp only [whiteCanvas]
    rw [U32M_val] at htw32 hth32 ⊢
    omega
  exact processImage_isOk _ _ _ _ cc hcc

/-- Witness for the amended C4 at the 0.5-ratio configuration and a square
100×100 source. -/
theorem no_interior_validation_witness :
    (computeGeometry cfgHalf imgSquare.width imgSquare.height).scaled_width = 0 ∧
    (computeGeometry cfgHalf imgSquare.width imgSquare.height).scaled_height = 0 ∧
    (processImage cfgHalf imgSquare modelResize (some ("jpeg"))).isOk = true :=
  no_interior_validation cfgHalf imgSquare modelResize (some ("jpeg"))
    (fun _ _ _ => rfl) (fun _ _ _ => rfl) (by decide) (by decide)
    (by norm_num [cfgHalf, defaultConfig, U32M]) (by norm_num [cfgHalf, defaultConfig, U32M])
    (by norm_num [selectRatios, is_landscape, cfgHalf, defaultConfig, imgSquare])

end WhiteBorderAdder

namespace WhiteBorderAdder

/-- C5: a single failing candidate among otherwise successful ones is
recorded as exactly one failure outcome; all other candidates are
processed and counted as successes — the batch never aborts. -/
theorem batch_single_failure (pre post : List (String × Except ErrKind ℕ)) (n : String)
    (e : ErrKind)
    (hpre : ∀ i ∈ pre, i.2.isOk = true) (hpost : ∀ i ∈ post, i.2.isOk = true) :
    (runBatch (pre ++ (n, Except.error e) :: post)).total_fail = 1 ∧
    (runBatch (pre ++ (n, Except.error e) :: post)).total_ok = pre.length + post.length := by
  obtain ⟨hok, hfail, -⟩ := foldl_counts (pre ++ (n, Except.error e) :: post) initSummary
  have hco : (pre ++ (n, Except.error e) :: post).countP (fun i => i.2.isOk) =
      pre.length + post.length := by
    rw [List.countP_append, List.countP_cons, List.countP_eq_length.mpr hpre,
      List.countP_eq_length.mpr hpost]
    simp [Except.isOk, Except.toBool]
  have hcf : (pre ++ (n, Except.error e) :: post).countP (fun i => !i.2.isOk) = 1 := by
    rw [List.countP_append, List.countP_cons]
    have hz : pre.countP (fun i => !i.2.isOk) = 0 :=
      List.countP_eq_zero.mpr (fun i hi => by simp [hpre i hi])
    have hz2 : post.countP (fun i => !i.2.isOk) = 0 :=
      List.countP_eq_zero.mpr (fun i hi => by simp [hpost i hi])
    rw [hz, hz2]
    simp [Except.isOk, Except.toBool]
  unfold runBatch
  rw [hok, hfail, hco, hcf]
  simp [initSummary]

/-- Witness for C5: one corrupt file between two valid ones. -/
theorem batch_single_failure_witness :
    (runBatch ([("a", Except.ok 5)] ++
      ("bad", Except.error ErrKind.decodeError) :: [("b", Except.ok 7)])).total_fail = 1 ∧
    (runBatch ([("a", Except.ok 5)] ++
      ("bad", Except.error ErrKind.decodeError) :: [("b", Except.ok 7)])).total_ok = 1 + 1 :=
  batch_single_failure _ _ _ _ (by decide) (by decide)

/-- C6: the recorded fastest/slowest equal the first-seen minimal/maximal
success (specFastest/specSlowest keep the earlier entry on ties), the
fastest duration bounds every success duration from below and the slowest
from above, and a later success whose duration equals the current
extremum does not replace it. -/
theorem batch_extrema (items : List (String × Except ErrKind ℕ)) :
    ((runBatch items).fastest = specFastest items ∧
      (runBatch items).slowest = specSlowest items) ∧
    (∀ p : String × ℕ, (runBatch items).fastest = some p →
      ∀ i ∈ items, ∀ d : ℕ, i.2 = Except.ok d → p.2 ≤ d) ∧
    (∀ p : String × ℕ, (runBatch items).slowest = some p →
      ∀ i ∈ items, ∀ d : ℕ, i.2 = Except.ok d → d ≤ p.2) ∧
    (∀ (s : Summary) (nm : String) (p : String × ℕ), s.fastest = some p →
      (stepSummary s (nm, Except.ok p.2)).fastest = s.fastest) ∧
    (∀ (s : Summary) (nm : String) (p : String × ℕ), s.slowest = some p →
      (stepSummary s (nm, Except.ok p.2)).slowest = s.slowest) := by
  refine ⟨⟨runBatch_fastest items, runBatch_slowest items⟩, ?_, ?_, ?_, ?_⟩
  · intro p hp
    rw [runBatch_fastest] at hp
    exact specFastest_min items p hp
  · intro p hp
    rw [runBatch_slowest] at hp
    exact specSlowest_max items p hp
  · intro s nm p hs
    simp [stepSummary, hs]
  · intro s nm p hs
    simp [stepSummary, hs]

/-- Witness for C6 on a list with two equal-duration successes: the first
one is the recorded fastest, and its duration bounds the other. -/
theorem batch_extrema_witness :
    (runBatch demoItems).fastest = specFastest demoItems ∧ (5 : ℕ) ≤ 5 :=
  ⟨(batch_extrema demoItems).1.1,
   (batch_extrema demoItems).2.1 ("a", 5) (by decide) ("b", Except.ok 5) (by simp [demoItems]) 5 rfl⟩

/-- C7: failures contribute nothing to the accumulated duration (it is the
sum of the successful durations); with zero successes the report keeps the
counts but omits average, fastest and slowest; with at least one success
the average is total successful duration over the success count. -/
theorem summary_report (items : List (String × Except ErrKind ℕ)) :
    (runBatch items).total_duration = (okDurations items).sum ∧
    (finalReport (runBatch items)).total_ok = (runBatch items).total_ok ∧
    (finalReport (runBatch items)).total_fail = (runBatch items).total_fail ∧
    ((runBatch items).total_ok = 0 →
      (finalReport (runBatch items)).average = none ∧
      (finalReport (runBatch items)).fastest = none ∧
      (finalReport (runBatch items)).slowest = none) ∧
    (0 < (runBatch items).total_ok →
      (finalReport (runBatch items)).average =
        some (((runBatch items).total_duration : ℚ) / ((runBatch items).total_ok : ℚ))) := by
  obtain ⟨-, -, hdur⟩ := foldl_counts items initSummary
  have hdur2 : (runBatch items).total_duration = (okDurations items).sum := by
    unfold runBatch
    rw [hdur]
    simp [initSummary]
  refine ⟨hdur2, rfl, rfl, ?_, ?_⟩
  · intro h0
    simp [finalReport, h0]
  · intro hpos
    simp [finalReport, hpos]

/-- Witness for C7: the empty batch has zero successes and the report
omits average, fastest and slowest. -/
theorem summary_report_witness :
    (finalReport (runBatch [])).average = none ∧
    (finalReport (runBatch [])).fastest = none ∧
    (finalReport (runBatch [])).slowest = none :=
  (summary_report []).2.2.2.1 rfl

lemma countP_ok_add_not (items : List (String × Except ErrKind ℕ)) :
    items.countP (fun i => i.2.isOk) + items.countP (fun i => !i.2.isOk) = items.length := by
  induction items with
  | nil => simp
  | cons hd tl ih =>
    rcases h : hd.2.isOk <;> simp [List.countP_cons, h, ih] <;> omega

/-- C10: every attempted candidate increments exactly one of the two
counters (they sum to the number of candidates), the extrema records are
present exactly when at least one success exists, and the fastest duration
never exceeds the slowest. -/
theorem batch_counter_invariants (items : List (String × Except ErrKind ℕ)) :
    (runBatch items).total_ok + (runBatch items).total_fail = items.length ∧
    ((runBatch items).fastest.isSome ↔ 0 < (runBatch items).total_ok) ∧
    ((runBatch items).slowest.isSome ↔ 0 < (runBatch items).total_ok) ∧
    (∀ p q : String × ℕ, (runBatch items).fastest = some p →
      (runBatch items).slowest = some q → p.2 ≤ q.2) := by
  obtain ⟨hok, hfail, -⟩ := foldl_counts items initSummary
  have hok2 : (runBatch items).total_ok = items.countP (fun i => i.2.isOk) := by
    unfold runBatch
    rw [hok]
    simp [initSummary]
  have hfail2 : (runBatch items).total_fail = items.countP (fun i => !i.2.isOk) := by
    unfold runBatch
    rw [hfail]
    simp [initSummary]
  refine ⟨?_, ?_, ?_, ?_⟩
  · rw [hok2, hfail2, countP_ok_add_not]
  · rw [runBatch_fastest, hok2, Option.isSome_iff_ne_none]
    constructor
    · intro hne
      have hc : ¬ items.countP (fun i => i.2.isOk) = 0 :=
        fun h => hne (specFastest_eq_none.mpr h)
      omega
    · intro hpos hnone
      have hc := specFastest_eq_none.mp hnone
      omega
  · rw [runBatch_slowest, hok2, Option.isSome_iff_ne_none]
    constructor
    · intro hne
      have hc : ¬ items.countP (fun i => i.2.isOk) = 0 :=
        fun h => hne (specSlowest_eq_none.mpr h)
      omega
    · intro hpos hnone
      have hc := specSlowest_eq_none.mp hnone
      omega
  · intro p q hp hq
    rw [runBatch_fastest] at hp
    rw [runBatch_slowest] at hq
    exact specFastest_min items p hp (q.1, Except.ok q.2) (specSlowest_mem hq) q.2 rfl

/-- Witness for C10 on the demonstration list. -/
theorem batch_counter_invariants_witness :
    (runBatch demoItems).total_ok + (runBatch demoItems).total_fail = demoItems.length ∧
    (5 : ℕ) ≤ 5 :=
  ⟨(batch_counter_invariants demoItems).1,
   (batch_counter_invariants demoItems).2.2.2 ("a", 5) ("a", 5) (by decide) (by decide)⟩

end WhiteBorderAdder

namespace WhiteBorderAdder

lemma encodeDispatch_png (quality : ℕ) (outExtension : Option String) (c : Canvas)
    (h : extLower outExtension = "png") :
    encodeDispatch quality outExtension c = Encoded.png c := by
  simp [encodeDispatch, h]

lemma encodeDispatch_jpeg (quality : ℕ) (outExtension : Option String) (c : Canvas)
    (h : ¬ extLower outExtension = "png") :
    encodeDispatch quality outExtension c = Encoded.jpeg c quality := by
  simp [encodeDispatch, h]

/-- Counterexample to C8: `copy_from` copies source pixels verbatim,
including their alpha channel.  Compositing a fully transparent 2×2 PNG
source onto the 4×4 white canvas succeeds and leaves a pixel with alpha 0
inside the placed region, so the composited buffer is not fully opaque. -/
theorem composited_pixel_not_opaque :
    outPixel (processImage cfgTiny imgClear resizeClear (some ("png"))) 0 0 = some clearPix ∧
    clearPix.a ≠ WHITE.a := by
  constructor
  · have hg : computeGeometry cfgTiny 2 2 =
        { scaled_width := 4, scaled_height := 4, offset_x := 0, offset_y := 0 } := by
      simp only [computeGeometry, selectRatios, is_landscape, castU32, roundHalfAway, wrap32,
        U32M, cfgTiny]
      norm_num [min_def]
      decide
    have hcf := copyFrom_ok (whiteCanvas cfgTiny) (resizeClear imgClear 4 4) 0 0 (by
      simp only [whiteCanvas, resizeClear, cfgTiny, U32M]
      norm_num)
    have hcc : compositeCanvas cfgTiny imgClear resizeClear =
        Except.ok { width := (whiteCanvas cfgTiny).width
                    height := (whiteCanvas cfgTiny).height
                    pix := fun px py =>
                      if 0 ≤ px ∧ px < 0 + (resizeClear imgClear 4 4).width ∧
                          0 ≤ py ∧ py < 0 + (resizeClear imgClear 4 4).height then
                        (resizeClear imgClear 4 4).pix (px - 0) (py - 0)
                      else
                        (whiteCanvas cfgTiny).pix px py } := by
      rw [compositeCanvas_eq]
      simp only [show imgClear.width = 2 from rfl, show imgClear.height = 2 from rfl]
      rw [hg]
      exact hcf
    unfold processImage
    rw [hcc]
    dsimp only
    rw [encodeDispatch_png _ _ _ (by decide)]
    simp only [outPixel, Option.some.injEq]
    rw [if_pos (by simp [resizeClear])]
    rfl
  · decide

end WhiteBorderAdder

namespace WhiteBorderAdder

/-- Amended C8: for every successful composition the canvas has exactly the
target dimensions, the canvas is initialized all-white at full opacity,
every pixel outside the placed region stays solid white at full opacity,
and every pixel inside the placed region is copied verbatim from the
resized source — including its alpha, so the composited buffer is fully
opaque only when the resized source is.  The compositor returns a fresh
buffer; the source is only read. -/
theorem compositor_invariant (config : Config) (img : Canvas)
    (resizeFn : Canvas → ℕ → ℕ → Canvas)
    (hrw : ∀ c w h, (resizeFn c w h).width = w)
    (hrh : ∀ c w h, (resizeFn c w h).height = h)
    (how : 0 < img.width) (hoh : 0 < img.height)
    (htw : 0 < config.target_width) (hth : 0 < config.target_height)
    (htw32 : config.target_width < U32M) (hth32 : config.target_height < U32M)
    (h1 : 0 ≤ config.landscape_vert_border) (h2 : config.landscape_vert_border < 1 / 2)
    (h3 : 0 ≤ config.landscape_horiz_border) (h4 : config.landscape_horiz_border < 1 / 2)
    (h5 : 0 ≤ config.portrait_vert_border) (h6 : config.portrait_vert_border < 1 / 2)
    (h7 : 0 ≤ config.portrait_horiz_border) (h8 : config.portrait_horiz_border < 1 / 2) :
    ∃ c : Canvas,
      compositeCanvas config img resizeFn = Except.ok c ∧
      c.width = config.target_width ∧
      c.height = config.target_height ∧
      (∀ x y : ℕ, (whiteCanvas config).pix x y = WHITE) ∧
      (∀ x y : ℕ,
        x < (computeGeometry config img.width img.height).offset_x ∨
          (computeGeometry config img.width img.height).offset_x +
            (computeGeometry config img.width img.height).scaled_width ≤ x ∨
          y < (computeGeometry config img.width img.height).offset_y ∨
          (computeGeometry config img.width img.height).offset_y +
            (computeGeometry config img.width img.height).scaled_height ≤ y →
        c.pix x y = WHITE) ∧
      (∀ x y : ℕ,
        (computeGeometry config img.width img.height).offset_x ≤ x ∧
          x < (computeGeometry config img.width img.height).offset_x +
            (computeGeometry config img.width img.height).scaled_width ∧
          (computeGeometry config img.width img.height).offset_y ≤ y ∧
          y < (computeGeometry config img.width img.height).offset_y +
            (computeGeometry config img.width img.height).scaled_height →
        c.pix x y =
          (resizeFn img (computeGeometry config img.width img.height).scaled_width
              (computeGeometry config img.width img.height).scaled_height).pix
            (x - (computeGeometry config img.width img.height).offset_x)
            (y - (computeGeometry config img.width img.height).offset_y)) := by
  obtain ⟨hsw, hsh, -, -, hox, hoy⟩ :=
    geometry_bounds config img.width img.height how hoh htw hth htw32 hth32
      h1 h2 h3 h4 h5 h6 h7 h8
  have hcond : ¬ ((whiteCanvas config).width <
        ((resizeFn img (computeGeometry config img.width img.height).scaled_width
            (computeGeometry config img.width img.height).scaled_height).width +
          (computeGeometry config img.width img.height).offset_x) % U32M ∨
      (whiteCanvas config).height <
        ((resizeFn img (computeGeometry config img.width img.height).scaled_width
            (computeGeometry config img.width img.height).scaled_height).height +
          (computeGeometry config img.width img.height).offset_y) % U32M) := by
    rw [hrw, hrh]
    simp only [whiteCanvas]
    push_neg
    constructor
    · rw [Nat.mod_eq_of_lt (by omega)]
      omega
    · rw [Nat.mod_eq_of_lt (by omega)]
      omega
  refine ⟨_, by rw [compositeCanvas_eq]; exact copyFrom_ok _ _ _ _ hcond, rfl, rfl,
    fun x y => rfl, ?_, ?_⟩
  · intro x y hcase
    have hco : ¬ ((computeGeometry config img.width img.height).offset_x ≤ x ∧
        x < (computeGeometry config img.width img.height).offset_x +
          (resizeFn img (computeGeometry config img.width img.height).scaled_width
            (computeGeometry config img.width img.height).scaled_height).width ∧
        (computeGeometry config img.width img.height).offset_y ≤ y ∧
        y < (computeGeometry config img.width img.height).offset_y +
          (resizeFn img (computeGeometry config img.width img.height).scaled_width
            (computeGeometry config img.width img.height).scaled_height).height) := by
      rw [hrw, hrh]
      omega
    exact if_neg hco
  · intro x y hcase
    have hci : (computeGeometry config img.width img.height).offset_x ≤ x ∧
        x < (computeGeometry config img.width img.height).offset_x +
          (resizeFn img (computeGeometry config img.width img.height).scaled_width
            (computeGeometry config img.width img.height).scaled_height).width ∧
        (computeGeometry config img.width img.height).offset_y ≤ y ∧
        y < (computeGeometry config img.width img.height).offset_y +
          (resizeFn img (computeGeometry config img.width img.height).scaled_width
            (computeGeometry config img.width img.height).scaled_height).height := by
      rw [hrw, hrh]
      omega
    exact if_pos hci

end WhiteBorderAdder

namespace WhiteBorderAdder

/-- Witness for the amended C8 at the default configuration, a 2×2 source
and the model resize collaborator. -/
theorem compositor_invariant_witness :
    ∃ c : Canvas,
      compositeCanvas defaultConfig imgClear modelResize = Except.ok c ∧
      c.width = defaultConfig.target_width ∧
      c.height = defaultConfig.target_height ∧
      (∀ x y : ℕ, (whiteCanvas defaultConfig).pix x y = WHITE) ∧
      (∀ x y : ℕ,
        x < (computeGeometry defaultConfig imgClear.width imgClear.height).offset_x ∨
          (computeGeometry defaultConfig imgClear.width imgClear.height).offset_x +
            (computeGeometry defaultConfig imgClear.width imgClear.height).scaled_width ≤ x ∨
          y < (computeGeometry defaultConfig imgClear.width imgClear.height).offset_y ∨
          (computeGeometry defaultConfig imgClear.width imgClear.height).offset_y +
            (computeGeometry defaultConfig imgClear.width imgClear.height).scaled_height ≤ y →
        c.pix x y = WHITE) ∧
      (∀ x y : ℕ,
        (computeGeometry defaultConfig imgClear.width imgClear.height).offset_x ≤ x ∧
          x < (computeGeometry defaultConfig imgClear.width imgClear.height).offset_x +
            (computeGeometry defaultConfig imgClear.width imgClear.height).scaled_width ∧
          (computeGeometry defaultConfig imgClear.width imgClear.height).offset_y ≤ y ∧
          y < (computeGeometry defaultConfig imgClear.width imgClear.height).offset_y +
            (computeGeometry defaultConfig imgClear.width imgClear.height).scaled_height →
        c.pix x y =
          (modelResize imgClear
              (computeGeometry defaultConfig imgClear.width imgClear.height).scaled_width
              (computeGeometry defaultConfig imgClear.width imgClear.height).scaled_height).pix
            (x - (computeGeometry defaultConfig imgClear.width imgClear.height).offset_x)
            (y - (computeGeometry defaultConfig imgClear.width imgClear.height).offset_y)) :=
  compositor_invariant defaultConfig imgClear modelResize
    (fun _ _ _ => rfl) (fun _ _ _ => rfl) (by decide) (by decide)
    (by norm_num [defaultConfig]) (by norm_num [defaultConfig])
    (by norm_num [defaultConfig, U32M]) (by norm_num [defaultConfig, U32M])
    (by norm_num [defaultConfig]) (by norm_num [defaultConfig])
    (by norm_num [defaultConfig]) (by norm_num [defaultConfig])
    (by norm_num [defaultConfig]) (by norm_num [defaultConfig])
    (by norm_num [defaultConfig]) (by norm_num [defaultConfig])

/-- C9: encoder selection depends only on the lowercased output extension:
`"png"` in any letter case selects lossless PNG and the quality parameter
is ignored; any other extension, or none, selects JPEG at the configured
quality. -/
theorem encoder_dispatch_by_ext (q q2 : ℕ) (e : Option String) (c : Canvas) :
    (extLower e = "png" →
      encodeDispatch q e c = Encoded.png c ∧ encodeDispatch q e c = encodeDispatch q2 e c) ∧
    (extLower e ≠ "png" → encodeDispatch q e c = Encoded.jpeg c q) := by
  constructor
  · intro h
    rw [encodeDispatch_png q e c h, encodeDispatch_png q2 e c h]
    exact ⟨rfl, rfl⟩
  · intro h
    exact encodeDispatch_jpeg q e c h

/-- Witness for C9: an upper-case `.PNG` extension selects PNG regardless
of quality, and a `.jpg` extension selects JPEG at the configured
quality. -/
theorem encoder_dispatch_by_ext_witness :
    (encodeDispatch 80 (some ("PNG")) (whiteCanvas defaultConfig) =
        Encoded.png (whiteCanvas defaultConfig) ∧
      encodeDispatch 80 (some ("PNG")) (whiteCanvas defaultConfig) =
        encodeDispatch 100 (some ("PNG")) (whiteCanvas defaultConfig)) ∧
    encodeDispatch 80 (some ("jpg")) (whiteCanvas defaultConfig) =
      Encoded.jpeg (whiteCanvas defaultConfig) 80 :=
  ⟨(encoder_dispatch_by_ext 80 100 (some ("PNG")) (whiteCanvas defaultConfig)).1 (by decide),
   (encoder_dispatch_by_ext 80 100 (some ("jpg")) (whiteCanvas defaultConfig)).2 (by decide)⟩

end WhiteBorderAdder
